import Mathlib

/-!
Verification of the MeshMonitor user-scripts core algorithms: the message
paginator (split_message, duplicated across ai.py, commands.py, fun.py and
sunrise.py), the free-text parameter resolver in the main functions of
ai.py and sunrise.py, the paged commands directory of commands.py, the
JSON envelope construction, and the date-seeded fun bot of fun.py.
Python strings are modelled as List Char; Python str.split, str.join,
str.strip, str.lower, str.startswith, str.endswith and slicing are
modelled by the py* functions below.
-/

/-- Python s.split(sep) for a one-character separator: keeps empty pieces,
and the empty string splits to a single empty piece. -/
def pySplit (sep : Char) : List Char → List (List Char)
  | [] => [[]]
  | c :: rest =>
    match pySplit sep rest with
    | [] => [[]]
    | w :: ws => if c = sep then [] :: w :: ws else (c :: w) :: ws

/-- Python sep.join(pieces). -/
def pyJoin (sep : List Char) : List (List Char) → List Char
  | [] => []
  | [x] => x
  | x :: y :: ys => x ++ sep ++ pyJoin sep (y :: ys)

/-- The characters Python str.strip() removes. -/
def isPySpace (c : Char) : Bool :=
  c = ' ' || c = '\t' || c = '\n' || c = '\r' || c = '\x0b' || c = '\x0c'

/-- Python s.strip(). -/
def pyStrip (s : List Char) : List Char :=
  ((s.dropWhile isPySpace).reverse.dropWhile isPySpace).reverse

/-- Python s.lower() (ASCII case folding). -/
def pyLower (s : List Char) : List Char := s.map Char.toLower

/-- Python s.startswith(p). -/
def pyStartsWith : List Char → List Char → Bool
  | _, [] => true
  | [], _ :: _ => false
  | c :: s, d :: p => c = d && pyStartsWith s p

/-- Python s.endswith(p). -/
def pyEndsWith (s p : List Char) : Bool := pyStartsWith s.reverse p.reverse

/-- One step of the inner word loop of split_message (ai.py lines 273-280):
greedily accumulate space-separated words into sub-lines at most maxChars
long, flushing a completed sub-line when the next word would overflow. -/
def wordLoop (maxChars : Nat) :
    List (List Char) × List (List Char) → List (List Char) →
    List (List Char) × List (List Char)
  | st, [] => st
  | (messages, currentLine), word :: rest =>
    let testLine := pyJoin [' '] (currentLine ++ [word])
    if testLine.length ≤ maxChars then
      wordLoop maxChars (messages, currentLine ++ [word]) rest
    else
      let messages1 :=
        if currentLine = [] then messages
        else messages ++ [pyJoin [' '] currentLine]
      wordLoop maxChars (messages1, [word]) rest

/-- The outer line loop of split_message (ai.py lines 263-284): greedily
accumulate newline-joined lines, flushing the accumulator when the next
line would overflow, and word-wrapping any single line longer than
maxChars. -/
def lineLoop (maxChars : Nat) :
    List (List Char) × List (List Char) → List (List Char) →
    List (List Char) × List (List Char)
  | st, [] => st
  | (messages, currentMessage), line :: rest =>
    let testMessage := pyJoin ['\n'] (currentMessage ++ [line])
    if testMessage.length ≤ maxChars then
      lineLoop maxChars (messages, currentMessage ++ [line]) rest
    else
      let messages1 :=
        if currentMessage = [] then messages
        else messages ++ [pyJoin ['\n'] currentMessage]
      if maxChars < line.length then
        let res := wordLoop maxChars (messages1, []) (pySplit ' ' line)
        if res.2 = [] then
          lineLoop maxChars (res.1, currentMessage) rest
        else
          lineLoop maxChars (res.1, [pyJoin [' '] res.2]) rest
      else
        lineLoop maxChars (messages1, [line]) rest

/-- AIBot.split_message / CommandsBot.split_message / FunBot.split_message /
SunriseBot.split_message (the four copies are behaviourally identical). -/
def splitMessage (text : List Char) (maxChars : Nat) : List (List Char) :=
  if text.length ≤ maxChars then [text]
  else
    let res := lineLoop maxChars ([], []) (pySplit '\n' text)
    if res.2 = [] then res.1 else res.1 ++ [pyJoin ['\n'] res.2]

/-- A word character of the regular expression used in ai.py line 328 and
sunrise.py line 384 (ASCII letters, digits, underscore). -/
def isWordChar (c : Char) : Bool := c.isAlphanum || c = '_'

/-- Whether a placeholder made of an opening brace, one or more word
characters and a closing brace occurs starting at the head of the list. -/
def placeholderAt (l : List Char) : Bool :=
  match l.dropWhile isWordChar with
  | '\x7d' :: _ => !(l.takeWhile isWordChar).isEmpty
  | _ => false

/-- re.search of a brace-delimited word placeholder in the trigger pattern
(ai.py line 328, sunrise.py line 384). -/
def hasPlaceholder : List Char → Bool
  | [] => false
  | c :: rest =>
    if c = '\x7b' then placeholderAt rest || hasPlaceholder rest
    else hasPlaceholder rest

/-- Python trigger_pattern.split(brace)[0]: the part before the first
opening brace, or the whole string when it has none. -/
def beforeBrace (l : List Char) : List Char :=
  l.takeWhile (fun c => c ≠ '\x7b')

/-- Strip one layer of matching surrounding double or single quotes
(ai.py lines 336-339 and the analogous blocks). -/
def stripQuotes (q : List Char) : List Char :=
  if pyStartsWith q ['"'] && pyEndsWith q ['"'] then (q.drop 1).dropLast
  else if pyStartsWith q ['\x27'] && pyEndsWith q ['\x27'] then
    (q.drop 1).dropLast
  else q

/-- The last-resort for-loop of ai.py lines 350-360: test the lowercased
raw message against a list of known command heads and, for the first that
matches, return the remainder of the raw message trimmed, with one layer
of quotes stripped; otherwise keep the current candidate. -/
def knownHeadFallback (om q : List Char) : List (List Char) → List Char
  | [] => q
  | p :: ps =>
    if pyStartsWith (pyLower om) p then stripQuotes (pyStrip (om.drop p.length))
    else knownHeadFallback om q ps

/-- The parameter resolution logic of ai.py main, lines 311-360.
hostParam stands for the PARAM_question / PARAM_prompt / PARAM_message
chain, rawMessage for MESSAGE, trigger for TRIGGER. -/
def resolveAI (hostParam rawMessage trigger : List Char) : List Char :=
  let question := pyStrip hostParam
  if question = [] ∨ (question.length < 3 ∧ ' ' ∈ rawMessage) then
    let om := pyStrip rawMessage
    let tp := pyStrip trigger
    if om ≠ [] ∧ tp ≠ [] then
      if hasPlaceholder tp then
        let pre := pyStrip (beforeBrace tp)
        if pyStartsWith (pyLower om) (pyLower pre) then
          stripQuotes (pyStrip (om.drop pre.length))
        else question
      else
        let pre := if '\x7b' ∈ tp then pyStrip (beforeBrace tp) else tp
        if pyStartsWith (pyLower om) (pyLower pre) then
          stripQuotes (pyStrip (om.drop pre.length))
        else question
    else if om ≠ [] then
      knownHeadFallback om question
        [("ask ".data), ("ai ".data), ("chat ".data)]
    else question
  else question

/-- The parameter resolution logic of sunrise.py main, lines 373-395:
same shape as ai.py but with trust threshold 2, no extraction branch when
the trigger pattern has no placeholder, and no known-command fallback. -/
def resolveSunrise (hostParam rawMessage trigger : List Char) : List Char :=
  let location := pyStrip hostParam
  if location = [] ∨ (location.length < 2 ∧ ' ' ∈ rawMessage) then
    let om := pyStrip rawMessage
    let tp := pyStrip trigger
    if om ≠ [] ∧ tp ≠ [] then
      if hasPlaceholder tp then
        let pre := pyStrip (beforeBrace tp)
        if pyStartsWith (pyLower om) (pyLower pre) then
          stripQuotes (pyStrip (om.drop pre.length))
        else location
      else location
    else location
  else location

/-- The bullet lines built by CommandsBot.get_commands_list from the
COMMANDS registry of commands.py (the commands/command entries are
skipped in the loop at lines 172-176). -/
def commandLines : List (List Char) :=
  [("• weather \x7blocation\x7d - Get weather for location".data),
   ("• sunrise \x7blocation\x7d - Get sunrise/sunset times".data),
   ("• sunset \x7blocation\x7d - Get sunrise/sunset times".data),
   ("• daylight \x7blocation\x7d - Get sunrise/sunset times".data),
   ("• trivia - Random trivia question".data),
   ("• fact - Interesting tech fact".data),
   ("• joke - Get a joke".data),
   ("• quote - Inspirational quote".data),
   ("• ask \x7bquestion\x7d - AI assistant".data),
   ("• ai \x7bprompt\x7d - AI assistant".data),
   ("• chat \x7bmessage\x7d - AI assistant".data)]

/-- commands_text of commands.py line 179. -/
def commandsText : List Char := pyJoin ['\n'] commandLines

/-- Decimal rendering of a natural number, as Python str(i). -/
def natStr (n : Nat) : List Char := (toString n).data

/-- The per-page header of commands.py line 192. -/
def pageHeader (i total : Nat) : List Char :=
  ("Available Commands: Page ".data) ++ natStr i ++ (" of ".data) ++
    natStr total ++ (" (Msg ".data) ++ natStr i ++ ("/".data) ++
    natStr total ++ (")".data)

/-- The enumerate loop of commands.py lines 190-201: prefix each body
chunk with its header, re-splitting at the full 199 limit any combined
message that exceeds it. -/
def numberPages (total : Nat) : Nat → List (List Char) → List (List Char)
  | _, [] => []
  | i, msg :: rest =>
    let fullMsg := pageHeader i total ++ '\n' :: msg
    let this :=
      if 199 < fullMsg.length then splitMessage fullMsg 199 else [fullMsg]
    this ++ numberPages total (i + 1) rest

/-- CommandsBot.get_commands_list (commands.py lines 162-205): a plain
string in the single-message case, a list of page-numbered messages
otherwise, mirroring the Python Union return type. -/
def getCommandsList : Sum (List Char) (List (List Char)) :=
  let messages := splitMessage commandsText (199 - 50)
  if 1 < messages.length then
    Sum.inr (numberPages messages.length 1 messages)
  else
    match messages with
    | m :: _ => Sum.inl (("Available Commands:\n".data) ++ m)
    | [] => Sum.inl ("No commands available.".data)

/-- The body pages of the commands directory under the reduced budget. -/
def commandsBodyPages : List (List Char) :=
  splitMessage commandsText (199 - 50)

/-- The final page-numbered commands directory messages. -/
def commandsFinalPages : List (List Char) :=
  numberPages commandsBodyPages.length 1 commandsBodyPages

/-- The output envelope: the response / responses JSON keys of the
output dictionary built in ai.py lines 399-402 (identical in
commands.py, fun.py and sunrise.py). -/
inductive Envelope where
  | response : List Char → Envelope
  | responses : List (List Char) → Envelope
deriving DecidableEq

/-- The JSON key under which the payload is emitted. -/
def envelopeKey : Envelope → List Char
  | .response _ => ("response".data)
  | .responses _ => ("responses".data)

/-- How many strings the envelope payload carries. -/
def envelopeCount : Envelope → Nat
  | .response _ => 1
  | .responses l => l.length

/-- Python truthiness of the response variable (str or list). -/
def replyFalsy : Sum (List Char) (List (List Char)) → Bool
  | .inl s => s.isEmpty
  | .inr l => l.isEmpty

/-- ai.py lines 385-394 on the success path: split a long reply at 199,
collapse a one-element list back to a plain string, and substitute the
sentinel when the reply is falsy. -/
def aiFormatReply (text : List Char) :
    Sum (List Char) (List (List Char)) :=
  let response : Sum (List Char) (List (List Char)) :=
    if 199 < text.length then
      let m := splitMessage text 199
      if m.length = 1 then Sum.inl (m.headD []) else Sum.inr m
    else Sum.inl text
  if replyFalsy response then
    Sum.inl ("Error: No response generated".data)
  else response

/-- ai.py lines 399-402 (same in fun.py lines 247-250): a list becomes
the responses key, a plain string the response key. -/
def buildOutput : Sum (List Char) (List (List Char)) → Envelope
  | .inl s => .response s
  | .inr l => .responses l

/-- The composed emission path of ai.py main for a successful reply. -/
def aiEmit (text : List Char) : Envelope := buildOutput (aiFormatReply text)

/-- The fields of datetime.now() that fun.py can observe; FunBot reads
only year and yday (day of year). -/
structure PyDateTime where
  year : Nat
  yday : Nat
  hour : Nat
  minute : Nat
  second : Nat

/-- The seed FunBot.__init__ hands to random.seed (fun.py line 58). -/
def funSeed (t : PyDateTime) : Nat := t.year * 1000 + t.yday

/-- The trivia_list of FunBot.get_trivia. -/
def triviaList : List (List Char) :=
  [("Q: What does LoRa stand for? A: Long Range radio technology.".data),
   ("Q: What frequency band do most Meshtastic nodes use? A: 915 MHz (US) or 868 MHz (EU).".data),
   ("Q: What is mesh networking? A: A network where nodes relay messages for each other.".data),
   ("Q: What is the max range of LoRa? A: Up to 10+ miles line-of-sight.".data),
   ("Q: What does MQTT stand for? A: Message Queuing Telemetry Transport.".data),
   ("Q: What is a hop in mesh networking? A: One relay between source and destination.".data),
   ("Q: What is the ISM band? A: Industrial, Scientific, Medical radio band (unlicensed).".data),
   ("Q: What does APRS stand for? A: Automatic Packet Reporting System.".data),
   ("Q: What is packet radio? A: Digital data transmission over radio waves.".data),
   ("Q: What does RSSI measure? A: Received Signal Strength Indicator.".data)]

/-- The facts list of FunBot.get_fact. -/
def factList : List (List Char) :=
  [("Meshtastic can work completely offline - no internet required!".data),
   ("LoRa can transmit through obstacles better than WiFi or Bluetooth.".data),
   ("Mesh networks are self-healing - if one node fails, others route around it.".data),
   ("The first packet radio network was created in the 1970s by amateur radio operators.".data),
   ("LoRa uses spread spectrum modulation for long-range, low-power communication.".data),
   ("Mesh networks can span hundreds of miles with enough relay nodes.".data),
   ("Meshtastic uses encryption to secure all messages on the mesh.".data),
   ("LoRa devices can run for months on battery power.".data),
   ("The 915 MHz band is shared with WiFi, Bluetooth, and other devices.".data),
   ("Mesh networks are used in disaster relief when infrastructure fails.".data)]

/-- The jokes list of FunBot.get_joke. -/
def jokeList : List (List Char) :=
  [("Why did the mesh node break up? It couldn\x27t find a good connection!".data),
   ("What do you call a mesh network that tells jokes? A pun-net!".data),
   ("Why do mesh nodes make good friends? They\x27re always relaying messages!".data),
   ("What\x27s a mesh node\x27s favorite song? \x27I Will Always Route You\x27!".data),
   ("Why did the packet cross the mesh? To get to the other node!".data),
   ("What do you call a sleeping mesh network? A nap-net!".data),
   ("Why are mesh nodes so reliable? They always hop to it!".data),
   ("What\x27s a mesh node\x27s favorite game? Hopscotch!".data),
   ("Why don\x27t mesh nodes get lost? They always know the route!".data),
   ("What do mesh nodes say when they meet? \x27Nice to relay you!\x27".data)]

/-- The quotes list of FunBot.get_quote. -/
def quoteList : List (List Char) :=
  [("The network is the computer. - John Gage".data),
   ("Communication is the key to understanding. - Unknown".data),
   ("In a mesh network, every node is important. - Mesh Philosophy".data),
   ("The best network is one that works when you need it most. - Unknown".data),
   ("Radio waves connect us across distances. - Ham Radio Operator".data),
   ("A mesh network is only as strong as its weakest link. - Network Theory".data),
   ("Technology should serve humanity, not the other way around. - Unknown".data),
   ("The internet of things starts with the mesh of things. - Unknown".data),
   ("In disaster, mesh networks become lifelines. - Emergency Responder".data),
   ("Connectivity is a human right. - Digital Rights Advocate".data)]

/-- random.choice of a list, after random.seed(seed): the Mersenne
Twister draw is deterministic in the seed, so it is modelled as an
arbitrary index function of the seed and the list length. -/
def funChoice (choiceIdx : Nat → Nat → Nat) (seed : Nat)
    (l : List (List Char)) : List Char :=
  l.getD (choiceIdx seed l.length % l.length) []

/-- The four content getters of FunBot. -/
inductive FunCmd where
  | trivia | fact | joke | quote

/-- One invocation of FunBot: construct the bot at time t (seeding the
generator from year and day of year, fun.py lines 55-58) and run the
requested getter. -/
def runFunBot (choiceIdx : Nat → Nat → Nat) (t : PyDateTime) :
    FunCmd → List Char
  | .trivia => funChoice choiceIdx (funSeed t) triviaList
  | .fact => funChoice choiceIdx (funSeed t) factList
  | .joke => funChoice choiceIdx (funSeed t) jokeList
  | .quote => funChoice choiceIdx (funSeed t) quoteList

/-- The trigger head the ai.py resolver compares against the raw message:
the trimmed part before the opening brace when the (trimmed) trigger
pattern carries a placeholder or any opening brace, the whole trimmed
pattern otherwise. -/
def aiTriggerHead (tp : List Char) : List Char :=
  if hasPlaceholder tp then pyStrip (beforeBrace tp)
  else if '\x7b' ∈ tp then pyStrip (beforeBrace tp) else tp

/-! ### Helper lemmas about the Python string primitives -/

theorem pySplit_ne_nil (sep : Char) (s : List Char) : pySplit sep s ≠ [] := by
  induction s with
  | nil => simp [pySplit]
  | cons a rest ih =>
    rw [pySplit]
    cases h : pySplit sep rest with
    | nil => simp
    | cons w ws =>
      dsimp only
      split <;> simp

theorem mem_pySplit (sep : Char) (s : List Char) :
    ∀ w ∈ pySplit sep s, sep ∉ w ∧ ∀ c ∈ w, c ∈ s := by
  induction s with
  | nil =>
    intro w hw
    simp [pySplit] at hw
    subst hw
    simp
  | cons a rest ih =>
    intro w hw
    obtain ⟨w0, ws, hr⟩ : ∃ w0 ws, pySplit sep rest = w0 :: ws := by
      cases h : pySplit sep rest with
      | nil => exact absurd h (pySplit_ne_nil sep rest)
      | cons x xs => exact ⟨x, xs, rfl⟩
    rw [pySplit, hr] at hw
    dsimp only at hw
    by_cases hsep : a = sep
    · rw [if_pos hsep] at hw
      rcases List.mem_cons.mp hw with hw | hw
      · subst hw; simp
      · obtain ⟨h1, h2⟩ := ih w (hr ▸ hw)
        exact ⟨h1, fun c hc => List.mem_cons_of_mem a (h2 c hc)⟩
    · rw [if_neg hsep] at hw
      rcases List.mem_cons.mp hw with hw | hw
      · subst hw
        obtain ⟨h1, h2⟩ := ih w0 (hr ▸ List.mem_cons_self w0 ws)
        constructor
        · intro hmem
          rcases List.mem_cons.mp hmem with he | hmem
          · exact hsep he.symm
          · exact h1 hmem
        · intro c hc
          rcases List.mem_cons.mp hc with he | hc
          · exact he ▸ List.mem_cons_self a rest
          · exact List.mem_cons_of_mem a (h2 c hc)
      · obtain ⟨h1, h2⟩ := ih w (hr ▸ List.mem_cons_of_mem w0 hw)
        exact ⟨h1, fun c hc => List.mem_cons_of_mem a (h2 c hc)⟩

theorem pySplit_of_not_mem (sep : Char) (s : List Char) (h : sep ∉ s) :
    pySplit sep s = [s] := by
  induction s with
  | nil => rfl
  | cons a rest ih =>
    have ha : ¬ a = sep := fun e => h (e ▸ List.mem_cons_self a rest)
    have hrest : sep ∉ rest := fun hr => h (List.mem_cons_of_mem a hr)
    rw [pySplit, ih hrest]
    simp [ha]

theorem pyJoin_single (sep : List Char) (x : List Char) :
    pyJoin sep [x] = x := rfl

/-! ### The pagination invariant: every chunk either fits the limit or is
a single token free of spaces and newlines -/

/-- The chunk invariant maintained by split_message. -/
def chunkOk (maxChars : Nat) (c : List Char) : Prop :=
  c.length ≤ maxChars ∨ (' ' ∉ c ∧ '\n' ∉ c)

theorem wordLoop_inv (maxChars : Nat) (words : List (List Char)) :
    ∀ st : List (List Char) × List (List Char),
      (∀ w ∈ words, ' ' ∉ w ∧ '\n' ∉ w) →
      (∀ m ∈ st.1, chunkOk maxChars m) →
      (st.2 = [] ∨ chunkOk maxChars (pyJoin [' '] st.2)) →
      (∀ m ∈ (wordLoop maxChars st words).1, chunkOk maxChars m) ∧
      ((wordLoop maxChars st words).2 = [] ∨
        chunkOk maxChars (pyJoin [' '] (wordLoop maxChars st words).2)) := by
  induction words with
  | nil =>
    intro st _ h1 h2
    exact ⟨h1, h2⟩
  | cons word rest ih =>
    intro st hw h1 h2
    obtain ⟨messages, currentLine⟩ := st
    rw [wordLoop]
    dsimp only
    split
    · -- the word still fits the accumulating sub-line
      rename_i hfit
      refine ih (messages, currentLine ++ [word])
        (fun w hmem => hw w (List.mem_cons_of_mem word hmem)) h1 ?_
      exact Or.inr (Or.inl hfit)
    · -- overflow: flush the sub-line and restart from this word
      rename_i hover
      refine ih _ (fun w hmem => hw w (List.mem_cons_of_mem word hmem)) ?_ ?_
      · intro m hm
        dsimp only at hm
        split at hm
        · exact h1 m hm
        · rename_i hne
          rcases List.mem_append.mp hm with hm | hm
          · exact h1 m hm
          · rcases h2 with h2 | h2
            · exact absurd h2 hne
            · rw [List.mem_singleton] at hm
              exact hm ▸ h2
      · right
        rw [pyJoin_single]
        exact Or.inr (hw word (List.mem_cons_self word rest))

theorem wordLoop_snd_ne (maxChars : Nat) (words : List (List Char)) :
    ∀ st : List (List Char) × List (List Char),
      (st.2 ≠ [] ∨ words ≠ []) → (wordLoop maxChars st words).2 ≠ [] := by
  induction words with
  | nil =>
    intro st h
    rcases h with h | h
    · exact h
    · exact absurd rfl h
  | cons word rest ih =>
    intro st _
    obtain ⟨messages, currentLine⟩ := st
    rw [wordLoop]
    dsimp only
    split
    · exact ih (messages, currentLine ++ [word]) (Or.inl (by simp))
    · exact ih _ (Or.inl (by simp))

theorem lineLoop_inv (maxChars : Nat) (lines : List (List Char)) :
    ∀ st : List (List Char) × List (List Char),
      (∀ l ∈ lines, '\n' ∉ l) →
      (∀ m ∈ st.1, chunkOk maxChars m) →
      (st.2 = [] ∨ chunkOk maxChars (pyJoin ['\n'] st.2)) →
      (∀ m ∈ (lineLoop maxChars st lines).1, chunkOk maxChars m) ∧
      ((lineLoop maxChars st lines).2 = [] ∨
        chunkOk maxChars (pyJoin ['\n'] (lineLoop maxChars st lines).2)) := by
  induction lines with
  | nil =>
    intro st _ h1 h2
    exact ⟨h1, h2⟩
  | cons line rest ih =>
    intro st hl h1 h2
    obtain ⟨messages, currentMessage⟩ := st
    have hlrest : ∀ l ∈ rest, '\n' ∉ l :=
      fun l hmem => hl l (List.mem_cons_of_mem line hmem)
    have hline : '\n' ∉ line := hl line (List.mem_cons_self line rest)
    have hflush : ∀ m ∈ (if currentMessage = [] then messages
        else messages ++ [pyJoin ['\n'] currentMessage]), chunkOk maxChars m := by
      intro m hm
      split at hm
      · exact h1 m hm
      · rename_i hne
        rcases List.mem_append.mp hm with hm | hm
        · exact h1 m hm
        · rcases h2 with h2 | h2
          · exact absurd h2 hne
          · rw [List.mem_singleton] at hm
            exact hm ▸ h2
    rw [lineLoop]
    dsimp only
    by_cases hfit : (pyJoin ['\n'] (currentMessage ++ [line])).length ≤ maxChars
    · -- the line still fits the accumulating message
      rw [if_pos hfit]
      exact ih (messages, currentMessage ++ [line]) hlrest h1
        (Or.inr (Or.inl hfit))
    · rw [if_neg hfit]
      by_cases hlong : maxChars < line.length
      · -- overflowing line longer than the limit: word-wrap it
        rw [if_pos hlong]
        have hwords : ∀ w ∈ pySplit ' ' line, ' ' ∉ w ∧ '\n' ∉ w := by
          intro w hmem
          obtain ⟨hs, hsub⟩ := mem_pySplit ' ' line w hmem
          exact ⟨hs, fun hn => hline (hsub '\n' hn)⟩
        have hres := wordLoop_inv maxChars (pySplit ' ' line)
          ((if currentMessage = [] then messages
            else messages ++ [pyJoin ['\n'] currentMessage]), [])
          hwords hflush (Or.inl rfl)
        by_cases hwnil : (wordLoop maxChars
            ((if currentMessage = [] then messages
              else messages ++ [pyJoin ['\n'] currentMessage]), [])
            (pySplit ' ' line)).2 = []
        · rw [if_pos hwnil]
          exact ih _ hlrest hres.1 h2
        · rw [if_neg hwnil]
          refine ih _ hlrest hres.1 (Or.inr ?_)
          rw [pyJoin_single]
          rcases hres.2 with hc | hc
          · exact absurd hc hwnil
          · exact hc
      · -- overflow but the line itself fits: restart from it
        rw [if_neg hlong]
        refine ih _ hlrest hflush (Or.inr ?_)
        rw [pyJoin_single]
        exact Or.inl (Nat.le_of_not_lt hlong)

theorem lineLoop_snd_ne (maxChars : Nat) (lines : List (List Char)) :
    ∀ st : List (List Char) × List (List Char),
      (st.2 ≠ [] ∨ lines ≠ []) → (lineLoop maxChars st lines).2 ≠ [] := by
  induction lines with
  | nil =>
    intro st h
    rcases h with h | h
    · exact h
    · exact absurd rfl h
  | cons line rest ih =>
    intro st _
    obtain ⟨messages, currentMessage⟩ := st
    rw [lineLoop]
    dsimp only
    by_cases hfit : (pyJoin ['\n'] (currentMessage ++ [line])).length ≤ maxChars
    · rw [if_pos hfit]
      exact ih (messages, currentMessage ++ [line]) (Or.inl (by simp))
    · rw [if_neg hfit]
      by_cases hlong : maxChars < line.length
      · rw [if_pos hlong]
        by_cases hwnil : (wordLoop maxChars
            ((if currentMessage = [] then messages
              else messages ++ [pyJoin ['\n'] currentMessage]), [])
            (pySplit ' ' line)).2 = []
        · exact absurd hwnil (wordLoop_snd_ne maxChars (pySplit ' ' line) _
            (Or.inr (pySplit_ne_nil ' ' line)))
        · rw [if_neg hwnil]
          refine ih _ (Or.inl ?_)
          simp
      · rw [if_neg hlong]
        refine ih _ (Or.inl ?_)
        simp

/-- Every chunk produced by split_message either fits the limit or is a
single space-free, newline-free token. -/
theorem splitMessage_mem_ok (text : List Char) (maxChars : Nat)
    (c : List Char) (hc : c ∈ splitMessage text maxChars) :
    chunkOk maxChars c := by
  rw [splitMessage] at hc
  split at hc
  · rename_i hfit
    rw [List.mem_singleton] at hc
    exact Or.inl (hc ▸ hfit)
  · dsimp only at hc
    have hlines : ∀ l ∈ pySplit '\n' text, '\n' ∉ l :=
      fun l hmem => (mem_pySplit '\n' text l hmem).1
    have hinv := lineLoop_inv maxChars (pySplit '\n' text) ([], []) hlines
      (by simp) (Or.inl rfl)
    split at hc
    · exact hinv.1 c hc
    · rename_i hne
      rcases List.mem_append.mp hc with hc | hc
      · exact hinv.1 c hc
      · rw [List.mem_singleton] at hc
        rcases hinv.2 with hx | hx
        · exact absurd hx hne
        · exact hc ▸ hx

/-- split_message never returns the empty list. -/
theorem splitMessage_ne_nil_all (text : List Char) (maxChars : Nat) :
    splitMessage text maxChars ≠ [] := by
  rw [splitMessage]
  split
  · simp
  · dsimp only
    have h := lineLoop_snd_ne maxChars (pySplit '\n' text) ([], [])
      (Or.inr (pySplit_ne_nil '\n' text))
    rw [if_neg h]
    simp

/-- Re-splitting a single over-long token free of spaces and newlines
returns it unchanged as one chunk. -/
theorem splitMessage_token (c : List Char) (maxChars : Nat)
    (hs : ' ' ∉ c) (hn : '\n' ∉ c) (hl : ¬ c.length ≤ maxChars) :
    splitMessage c maxChars = [c] := by
  rw [splitMessage, if_neg hl]
  dsimp only
  rw [pySplit_of_not_mem '\n' c hn, lineLoop]
  dsimp only
  rw [List.nil_append, pyJoin_single, if_neg hl, if_pos rfl,
    if_pos (lt_of_not_le hl), pySplit_of_not_mem ' ' c hs, wordLoop]
  dsimp only
  rw [List.nil_append, pyJoin_single, if_neg hl, if_pos rfl, wordLoop]
  dsimp only
  rw [if_neg (by simp : ¬ ([c] : List (List Char)) = []), pyJoin_single,
    lineLoop]
  rw [if_neg (by simp : ¬ ([c] : List (List Char)) = []), pyJoin_single]
  simp

/-! ### Claim theorems -/

/-- C1: for every text and every maxChars > 0, every element of
split_message(text, maxChars) has length at most maxChars, except when
that element is a single word free of the splitting delimiters (space
and newline), which may be emitted as one oversized chunk. -/
theorem splitMessage_length_bound (text : List Char) (maxChars : Nat)
    (hpos : 0 < maxChars) (c : List Char)
    (hc : c ∈ splitMessage text maxChars) :
    c.length ≤ maxChars ∨ (' ' ∉ c ∧ '\n' ∉ c) :=
  splitMessage_mem_ok text maxChars c hc

/-- C1 witness: the invariant at a concrete oversized input. -/
theorem splitMessage_length_bound_witness :
    0 < 1 ∧ ("ab".data) ∈ splitMessage ("ab".data) 1 ∧
      (("ab".data).length ≤ 1 ∨ (' ' ∉ ("ab".data) ∧ '\n' ∉ ("ab".data))) :=
  ⟨by decide, by decide,
    splitMessage_length_bound ("ab".data) 1 (by decide) ("ab".data)
      (by decide)⟩

/-- C2 counterexample: for the non-empty text consisting of the two lines
ab and cd followed by a trailing newline and maxChars = 2, split_message
returns a sequence whose last element is the empty string, so the claim
that no element is empty fails on the code. -/
theorem splitMessage_empty_chunk_cex :
    splitMessage ("ab\ncd\n".data) 2 = [("ab".data), ("cd".data), []] ∧
      ([] : List Char) ∈ splitMessage ("ab\ncd\n".data) 2 ∧
      ("ab\ncd\n".data) ≠ [] ∧ 0 < 2 := by decide

/-- C2 (amended): for every non-empty text and every maxChars > 0,
split_message(text, maxChars) returns a non-empty sequence; its elements,
however, can be empty strings (for instance when the text ends in a
newline that is carried into a fresh accumulator). -/
theorem splitMessage_ne_nil (text : List Char) (maxChars : Nat)
    (hne : text ≠ []) (hpos : 0 < maxChars) :
    splitMessage text maxChars ≠ [] :=
  splitMessage_ne_nil_all text maxChars

/-- C2 witness: non-emptiness of the result at a concrete input. -/
theorem splitMessage_ne_nil_witness :
    ("a".data) ≠ ([] : List Char) ∧ 0 < 1 ∧
      splitMessage ("a".data) 1 ≠ [] :=
  ⟨by decide, by decide, splitMessage_ne_nil ("a".data) 1 (by decide)
    (by decide)⟩

/-- C3 counterexample: the ai.py resolver trusts the host parameter only
from length 3 up, not from length 2: trimmed hostParam ab is non-empty
and has length 2, yet with a raw message containing a space the resolver
performs pattern extraction and returns hi there instead of ab. -/
theorem resolveAI_trust_threshold_cex :
    pyStrip ("ab".data) ≠ [] ∧ 2 ≤ (pyStrip ("ab".data)).length ∧
      resolveAI ("ab".data) ("ask hi there".data)
        ("ask \x7bquestion\x7d".data) = ("hi there".data) ∧
      ("hi there".data) ≠ pyStrip ("ab".data) := by decide

/-- C3 (amended): the resolver trusts a non-empty trimmed host parameter
when its length reaches the script's threshold or the raw message has no
space, and then returns it trimmed without pattern extraction; the
threshold is 3 in ai.py and 2 in sunrise.py. -/
theorem resolver_trust_threshold (hostParam rawMessage trigger : List Char) :
    (pyStrip hostParam ≠ [] ∧
        (3 ≤ (pyStrip hostParam).length ∨ ' ' ∉ rawMessage) →
      resolveAI hostParam rawMessage trigger = pyStrip hostParam) ∧
    (pyStrip hostParam ≠ [] ∧
        (2 ≤ (pyStrip hostParam).length ∨ ' ' ∉ rawMessage) →
      resolveSunrise hostParam rawMessage trigger = pyStrip hostParam) := by
  constructor
  · rintro ⟨hne, hcond⟩
    have h : ¬(pyStrip hostParam = [] ∨
        ((pyStrip hostParam).length < 3 ∧ ' ' ∈ rawMessage)) := by
      rintro (h | ⟨hlt, hsp⟩)
      · exact hne h
      · rcases hcond with h3 | h3
        · exact absurd hlt (Nat.not_lt.mpr h3)
        · exact h3 hsp
    simp only [resolveAI]
    rw [if_neg h]
  · rintro ⟨hne, hcond⟩
    have h : ¬(pyStrip hostParam = [] ∨
        ((pyStrip hostParam).length < 2 ∧ ' ' ∈ rawMessage)) := by
      rintro (h | ⟨hlt, hsp⟩)
      · exact hne h
      · rcases hcond with h2 | h2
        · exact absurd hlt (Nat.not_lt.mpr h2)
        · exact h2 hsp
    simp only [resolveSunrise]
    rw [if_neg h]

/-- C3 witness: both resolvers trust a concrete long-enough parameter. -/
theorem resolver_trust_threshold_witness :
    (pyStrip ("Explain LoRa basics".data) ≠ [] ∧
        (3 ≤ (pyStrip ("Explain LoRa basics".data)).length ∨
          ' ' ∉ ("ask something".data))) ∧
      resolveAI ("Explain LoRa basics".data) ("ask something".data)
        ("ask \x7bquestion\x7d".data) = pyStrip ("Explain LoRa basics".data) :=
  ⟨⟨by decide, by decide⟩,
    (resolver_trust_threshold ("Explain LoRa basics".data)
      ("ask something".data) ("ask \x7bquestion\x7d".data)).1
      ⟨by decide, by decide⟩⟩

/-- C4: pagination is idempotent on its own chunks: re-running
split_message on any chunk of a prior result with the same maxChars
returns that chunk as a one-element sequence. -/
theorem splitMessage_idem (text : List Char) (maxChars : Nat)
    (hpos : 0 < maxChars) (c : List Char)
    (hc : c ∈ splitMessage text maxChars) :
    splitMessage c maxChars = [c] := by
  rcases splitMessage_mem_ok text maxChars c hc with h | ⟨hs, hn⟩
  · rw [splitMessage, if_pos h]
  · by_cases h : c.length ≤ maxChars
    · rw [splitMessage, if_pos h]
    · exact splitMessage_token c maxChars hs hn h

/-- C4 witness: idempotence at a concrete chunk of a concrete split. -/
theorem splitMessage_idem_witness :
    0 < 2 ∧ ("ab".data) ∈ splitMessage ("ab\ncd".data) 2 ∧
      splitMessage ("ab".data) 2 = [("ab".data)] :=
  ⟨by decide, by decide,
    splitMessage_idem ("ab\ncd".data) 2 (by decide) ("ab".data) (by decide)⟩

set_option maxRecDepth 100000 in
/-- C5 counterexample: the commands body does split into 3 chunks under
the reduced budget, but the final chunks do not begin with the bare
header text Page i of 3 (Msg i/3): the first chunk starts with the
prefix Available Commands: instead. -/
theorem commandsList_header_cex :
    commandsBodyPages.length = 3 ∧
      pyStartsWith (commandsFinalPages.getD 0 [])
        ("Page 1 of 3 (Msg 1/3)".data) = false := by decide

set_option maxRecDepth 100000 in
/-- C5 (amended): the commands body splits into 3 chunks under the
reduced budget 199 - 50, the paged result is returned as a list of 3
messages, every final chunk begins with the full header
Available Commands: Page i of 3 (Msg i/3) for its 1-based index i, and
no final chunk exceeds 199 characters. -/
theorem commandsList_paged_headers :
    commandsBodyPages.length = 3 ∧
      getCommandsList = Sum.inr commandsFinalPages ∧
      commandsFinalPages.length = 3 ∧
      (∀ m ∈ commandsFinalPages, m.length ≤ 199) ∧
      pyStartsWith (commandsFinalPages.getD 0 []) (pageHeader 1 3) = true ∧
      pyStartsWith (commandsFinalPages.getD 1 []) (pageHeader 2 3) = true ∧
      pyStartsWith (commandsFinalPages.getD 2 []) (pageHeader 3 3) = true := by
  decide

/-- C6: with trigger pattern ask placeholder, raw message
ask "What is mesh?" and an empty host parameter, the resolver strips the
case-insensitive trigger head, trims the remainder and removes one layer
of surrounding double quotes, returning What is mesh?. -/
theorem resolveAI_roundtrip :
    resolveAI [] ("ask \"What is mesh?\"".data)
      ("ask \x7bquestion\x7d".data) = ("What is mesh?".data) := by decide

/-- C7 counterexample: pattern extraction yields nothing (the trigger
head weather does not match the raw message), the known head ask does
match the raw message, yet the resolver returns the empty candidate
rather than applying the last-resort fallback: that fallback only runs
when the trigger pattern is empty. -/
theorem resolveAI_fallback_cex :
    resolveAI [] ("ask hello".data) ("weather \x7blocation\x7d".data) = [] ∧
      pyStartsWith (pyLower (pyStrip ("ask hello".data))) ("ask ".data)
        = true ∧
      ([] : List Char) ≠ ("hello".data) := by decide

/-- C7 (amended): the last-resort fallback over the fixed head list
ask, ai, chat runs exactly when the trimmed trigger pattern is empty and
the trimmed raw message is not; it then returns, for the first head that
matches case-insensitively, the remainder of the raw message trimmed and
quote-stripped, keeping the prior candidate when none matches. -/
theorem resolveAI_known_head_fallback (hostParam rawMessage trigger : List Char)
    (htrig : pyStrip trigger = [])
    (hattempt : pyStrip hostParam = [] ∨
      ((pyStrip hostParam).length < 3 ∧ ' ' ∈ rawMessage))
    (hraw : pyStrip rawMessage ≠ []) :
    resolveAI hostParam rawMessage trigger =
      knownHeadFallback (pyStrip rawMessage) (pyStrip hostParam)
        [("ask ".data), ("ai ".data), ("chat ".data)] := by
  simp only [resolveAI]
  rw [if_pos hattempt, if_neg (by simp [htrig]), if_pos hraw]

/-- C7 witness: the fallback at a concrete empty-trigger invocation. -/
theorem resolveAI_known_head_fallback_witness :
    pyStrip ([] : List Char) = [] ∧ pyStrip ("ai hello".data) ≠ [] ∧
      resolveAI [] ("ai hello".data) [] =
        knownHeadFallback (pyStrip ("ai hello".data)) (pyStrip [])
          [("ask ".data), ("ai ".data), ("chat ".data)] :=
  ⟨by decide, by decide,
    resolveAI_known_head_fallback [] ("ai hello".data) []
      (by decide) (Or.inl (by decide)) (by decide)⟩

/-- C8: the envelope builder maps the reply shape to the output key
deterministically: a plain-string reply is emitted under exactly the
response key, and a reply that paginates into n > 1 chunks is emitted
under exactly the responses key holding exactly those n entries. -/
theorem envelope_shape (text : List Char) :
    (text ≠ [] → text.length ≤ 199 →
      aiEmit text = Envelope.response text ∧
      envelopeKey (aiEmit text) = ("response".data) ∧
      envelopeCount (aiEmit text) = 1) ∧
    (∀ n, 1 < n → (splitMessage text 199).length = n → 199 < text.length →
      aiEmit text = Envelope.responses (splitMessage text 199) ∧
      envelopeKey (aiEmit text) = ("responses".data) ∧
      envelopeCount (aiEmit text) = n) := by
  constructor
  · intro hne hshort
    have hfalsy : replyFalsy (Sum.inl text) = false := by
      simp [replyFalsy, hne]
    simp only [aiEmit, aiFormatReply]
    rw [if_neg (Nat.not_lt.mpr hshort), hfalsy]
    simp [buildOutput, envelopeKey, envelopeCount]
  · intro n hn hlen hlong
    have hne1 : ¬ (splitMessage text 199).length = 1 := by omega
    have hnil : splitMessage text 199 ≠ [] :=
      splitMessage_ne_nil_all text 199
    have hfalsy : replyFalsy (Sum.inr (splitMessage text 199)) = false := by
      simp [replyFalsy, hnil]
    simp only [aiEmit, aiFormatReply]
    rw [if_pos hlong, if_neg hne1, hfalsy]
    simp [buildOutput, envelopeKey, envelopeCount, hlen]

set_option maxRecDepth 100000 in
/-- C8 witness: both envelope shapes at concrete replies. -/
theorem envelope_shape_witness :
    aiEmit ("hi".data) = Envelope.response ("hi".data) ∧
      aiEmit (List.replicate 100 'a' ++ '\n' :: List.replicate 100 'b') =
        Envelope.responses (splitMessage
          (List.replicate 100 'a' ++ '\n' :: List.replicate 100 'b') 199) :=
  ⟨((envelope_shape ("hi".data)).1 (by decide) (by decide)).1,
    (((envelope_shape (List.replicate 100 'a' ++ '\n' ::
        List.replicate 100 'b')).2 2 (by decide) (by decide) (by decide))).1⟩

/-- C9: the fun bot is deterministic for a fixed calendar date: the
constructor seeds the generator from the year and day of year only, so
two invocations at times agreeing on year and day of year return the
identical string for each getter, whatever deterministic draw the seeded
generator performs. -/
theorem funBot_daily_deterministic (choiceIdx : Nat → Nat → Nat)
    (t1 t2 : PyDateTime) (hy : t1.year = t2.year) (hd : t1.yday = t2.yday)
    (cmd : FunCmd) :
    runFunBot choiceIdx t1 cmd = runFunBot choiceIdx t2 cmd := by
  have hseed : funSeed t1 = funSeed t2 := by rw [funSeed, funSeed, hy, hd]
  cases cmd <;> simp [runFunBot, funChoice, hseed]

/-- C9 witness: two invocations at different clock times of the same
day agree on the joke. -/
theorem funBot_daily_deterministic_witness :
    (⟨2026, 285, 9, 30, 0⟩ : PyDateTime).year =
        (⟨2026, 285, 21, 45, 10⟩ : PyDateTime).year ∧
      (⟨2026, 285, 9, 30, 0⟩ : PyDateTime).yday =
        (⟨2026, 285, 21, 45, 10⟩ : PyDateTime).yday ∧
      runFunBot (fun s n => s % n) ⟨2026, 285, 9, 30, 0⟩ FunCmd.joke =
        runFunBot (fun s n => s % n) ⟨2026, 285, 21, 45, 10⟩ FunCmd.joke :=
  ⟨rfl, rfl,
    funBot_daily_deterministic (fun s n => s % n) ⟨2026, 285, 9, 30, 0⟩
      ⟨2026, 285, 21, 45, 10⟩ rfl rfl FunCmd.joke⟩

/-- C10: the resolver never discards a non-empty host parameter: when
the fallback extraction is attempted (parameter shorter than the trust
threshold and a space in the raw message) but neither the trigger head
nor any known command head matches the raw message, the resolved
argument is still the original trimmed host parameter; this holds for
both the ai.py and the sunrise.py resolver. -/
theorem resolver_keeps_hostParam (hostParam rawMessage trigger : List Char)
    (hne : pyStrip hostParam ≠ [])
    (hhead : pyStartsWith (pyLower (pyStrip rawMessage))
      (pyLower (aiTriggerHead (pyStrip trigger))) = false)
    (hask : pyStartsWith (pyLower (pyStrip rawMessage)) ("ask ".data) = false)
    (hai : pyStartsWith (pyLower (pyStrip rawMessage)) ("ai ".data) = false)
    (hchat : pyStartsWith (pyLower (pyStrip rawMessage)) ("chat ".data)
      = false) :
    ((pyStrip hostParam).length < 3 → ' ' ∈ rawMessage →
      resolveAI hostParam rawMessage trigger = pyStrip hostParam) ∧
    ((pyStrip hostParam).length < 2 → ' ' ∈ rawMessage →
      resolveSunrise hostParam rawMessage trigger = pyStrip hostParam) := by
  constructor
  · intro hlt hsp
    simp only [resolveAI]
    rw [if_pos (Or.inr ⟨hlt, hsp⟩)]
    by_cases hboth : pyStrip rawMessage ≠ [] ∧ pyStrip trigger ≠ []
    · rw [if_pos hboth]
      by_cases hpl : hasPlaceholder (pyStrip trigger) = true
      · rw [if_pos hpl]
        have hh : aiTriggerHead (pyStrip trigger) =
            pyStrip (beforeBrace (pyStrip trigger)) := by
          rw [aiTriggerHead, if_pos hpl]
        rw [hh] at hhead
        rw [if_neg (by simp [hhead])]
      · rw [if_neg hpl]
        have hh : aiTriggerHead (pyStrip trigger) =
            (if '\x7b' ∈ pyStrip trigger then
              pyStrip (beforeBrace (pyStrip trigger))
            else pyStrip trigger) := by
          rw [aiTriggerHead, if_neg hpl]
        rw [hh] at hhead
        rw [if_neg (by simp [hhead])]
    · rw [if_neg hboth]
      by_cases hom : pyStrip rawMessage ≠ []
      · rw [if_pos hom]
        simp [knownHeadFallback, hask, hai, hchat]
      · rw [if_neg hom]
  · intro hlt hsp
    simp only [resolveSunrise]
    rw [if_pos (Or.inr ⟨hlt, hsp⟩)]
    by_cases hboth : pyStrip rawMessage ≠ [] ∧ pyStrip trigger ≠ []
    · rw [if_pos hboth]
      by_cases hpl : hasPlaceholder (pyStrip trigger) = true
      · rw [if_pos hpl]
        have hh : aiTriggerHead (pyStrip trigger) =
            pyStrip (beforeBrace (pyStrip trigger)) := by
          rw [aiTriggerHead, if_pos hpl]
        rw [hh] at hhead
        rw [if_neg (by simp [hhead])]
      · rw [if_neg hpl]
    · rw [if_neg hboth]

/-- C10 witness: a short host parameter survives an unmatched fallback
attempt. -/
theorem resolver_keeps_hostParam_witness :
    pyStrip ("ab".data) ≠ [] ∧ (pyStrip ("ab".data)).length < 3 ∧
      ' ' ∈ ("zz yy".data) ∧
      resolveAI ("ab".data) ("zz yy".data) ("ask \x7bquestion\x7d".data) =
        pyStrip ("ab".data) :=
  ⟨by decide, by decide, by decide,
    (resolver_keeps_hostParam ("ab".data) ("zz yy".data)
      ("ask \x7bquestion\x7d".data) (by decide) (by decide) (by decide)
      (by decide) (by decide)).1 (by decide) (by decide)⟩
